import Mathlib

/-!
Verification of the plant-care-tracker core (src/main.py): the schedule
engine (due-status computation, mark operations, name uniqueness,
identity-based removal, reminder filtering) and the persistent store
(load/save with backup rotation and corruption recovery), shallowly
embedded in Lean.  Dates are modelled as integer day numbers; a stored
timestamp carries the day plus an optional time of day (the "T" form of
an ISO string).  The file system is modelled as the contents of the
primary and backup files, with explicit failure injection for the I/O
steps of save.
-/

namespace PlantCare

/-- A stored timestamp: an integer calendar day plus an optional time of
day (hour, minute).  `timeOfDay = none` corresponds to a plain date
string; `some _` corresponds to a datetime string containing `T`. -/
structure Timestamp where
  day : Int
  timeOfDay : Option (Nat × Nat)
  deriving Repr, DecidableEq

/-- The date component used by the reminder computation.  Mirrors
`datetime.fromisoformat(s).date()` when the string contains `T`
(time dropped) and `date.fromisoformat(s)` otherwise. -/
def Timestamp.dateOf (t : Timestamp) : Int :=
  match t.timeOfDay with
  | some _ => t.day
  | none => t.day

/-- History entry action, `entry["action"]` in main.py. -/
inductive Action where
  | watered
  | fertilized
  deriving Repr, DecidableEq

/-- A history entry as appended by `mark_watered` / `mark_fertilized`. -/
structure HistoryEntry where
  action : Action
  date : Timestamp
  notes : Option String
  deriving Repr, DecidableEq

/-- A plant record, the dictionary built in `add_plant`. -/
structure Plant where
  name : String
  watering_interval : Int
  watering_hour : Option Int
  fertilizing_interval : Option Int
  last_watered : Option Timestamp
  last_fertilized : Option Timestamp
  history : List HistoryEntry
  deriving Repr, DecidableEq

/-- Due-status classification of a `days_until` value (the three message
branches in `reminder_for`). -/
inductive DueStatus where
  | overdue (byDays : Nat)
  | dueToday
  | upcoming (inDays : Nat)
  deriving Repr, DecidableEq

/-- The classification applied to `days_until` in `reminder_for`:
negative is overdue by `-days_until`, zero is due today, positive is
upcoming in `days_until` days. -/
def classify (d : Int) : DueStatus :=
  if d < 0 then .overdue (-d).toNat
  else if d = 0 then .dueToday
  else .upcoming d.toNat

/-- The watering `days_until` computed in `reminder_for`: when
`last_watered` is set, `next_water = last_watered + watering_interval`
and `days_until = next_water - today`; when it is nil, 0. -/
def days_until_watering (p : Plant) (today : Int) : Int :=
  match p.last_watered with
  | some ts => ts.dateOf + p.watering_interval - today
  | none => 0

/-- The fertilizing `days_until` computed in `reminder_for` for a plant
whose `fertilizing_interval` is `some iv`. -/
def days_until_fertilizing (p : Plant) (iv : Int) (today : Int) : Int :=
  match p.last_fertilized with
  | some ts => ts.dateOf + iv - today
  | none => 0

/-- Watering due status of a plant, as `reminder_for` reports it. -/
def watering_status (p : Plant) (today : Int) : DueStatus :=
  classify (days_until_watering p today)

/-- Fertilizing status including the no-schedule case: `reminder_for`
prints "No fertilizing schedule" when `fertilizing_interval` is nil,
and classifies `days_until` otherwise. -/
inductive FertStatus where
  | noSchedule
  | scheduled (s : DueStatus)
  deriving Repr, DecidableEq

/-- Fertilizing due status of a plant, as `reminder_for` reports it. -/
def fertilizing_status (p : Plant) (today : Int) : FertStatus :=
  match p.fertilizing_interval with
  | none => .noSchedule
  | some iv => .scheduled (classify (days_until_fertilizing p iv today))

/-- Modelled from the spec: the `dueStatus` computation in the spec's
own words — `nextDue = lastDate + intervalDays`, `daysUntil = nextDue -
today`, nil last date giving `daysUntil = 0`, classified as
Overdue/DueToday/Upcoming.  Used to compare against the code-derived
functions above. -/
def dueStatus_spec (lastDate : Option Int) (interval : Int) (today : Int) : DueStatus :=
  let daysUntil : Int :=
    match lastDate with
    | some l => (l + interval) - today
    | none => 0
  if daysUntil < 0 then .overdue (-daysUntil).toNat
  else if daysUntil = 0 then .dueToday
  else .upcoming daysUntil.toNat

/-- Reminder filter choice in `show_reminders`: "1" both, "2" watering
only, "3" fertilizing only, "4" overdue only. -/
inductive Filter where
  | both
  | wateringOnly
  | fertilizingOnly
  | overdueOnly
  deriving Repr, DecidableEq

/-- A structured reminder message produced by `reminder_for`. -/
inductive Reminder where
  | watering (s : DueStatus)
  | fertilizingNoSchedule
  | fertilizing (s : DueStatus)
  deriving Repr, DecidableEq

/-- The list of reminder messages `reminder_for` produces for one plant:
the watering branch runs for filters 1, 2, 4 and appends its message
unless the filter is overdue-only and `days_until > 0`; the fertilizing
branch runs for filters 1, 3, 4, prints "No fertilizing schedule" (not
in overdue-only) when the interval is nil, and otherwise appends its
message unless the filter is overdue-only and `days_until > 0`. -/
def reminder_for (p : Plant) (fc : Filter) (today : Int) : List Reminder :=
  let wateringMsgs : List Reminder :=
    if fc = .both ∨ fc = .wateringOnly ∨ fc = .overdueOnly then
      let d := days_until_watering p today
      if fc ≠ .overdueOnly ∨ d ≤ 0 then [.watering (classify d)] else []
    else []
  let fertMsgs : List Reminder :=
    if fc = .both ∨ fc = .fertilizingOnly ∨ fc = .overdueOnly then
      match p.fertilizing_interval with
      | none => if fc ≠ .overdueOnly then [.fertilizingNoSchedule] else []
      | some iv =>
        let d := days_until_fertilizing p iv today
        if fc ≠ .overdueOnly ∨ d ≤ 0 then [.fertilizing (classify d)] else []
    else []
  wateringMsgs ++ fertMsgs

/-- True when the list holds a watering reminder. -/
def hasWateringReminder : List Reminder → Bool
  | [] => false
  | .watering _ :: _ => true
  | _ :: rest => hasWateringReminder rest

/-- True when the list holds a fertilizing reminder (scheduled kind). -/
def hasFertilizingReminder : List Reminder → Bool
  | [] => false
  | .fertilizing _ :: _ => true
  | _ :: rest => hasFertilizingReminder rest

/-- True when the list holds any fertilizing-related message, including
the "No fertilizing schedule" note. -/
def hasFertilizingRelated : List Reminder → Bool
  | [] => false
  | .fertilizing _ :: _ => true
  | .fertilizingNoSchedule :: _ => true
  | _ :: rest => hasFertilizingRelated rest

/-- Python's `str.lower()`, modelled as lowering each character of the
string. -/
def strLower (s : String) : List Char :=
  s.data.map Char.toLower

/-- Typed failures of the schedule-engine operations. -/
inductive EngineError where
  | emptyName
  | duplicateName
  | noFertilizingSchedule
  deriving Repr, DecidableEq

/-- The add operation `add_plant`: rejects an empty name, rejects a name whose lowercase
form equals an existing plant's lowercase name, and otherwise appends a
plant with the given configuration, nil `last_*` fields and empty
history, returning the extended list. -/
def add_plant (plants : List Plant) (name : String) (watering_interval : Int)
    (watering_hour : Option Int) (fertilizing_interval : Option Int) :
    Except EngineError (List Plant) :=
  if name = "" then .error .emptyName
  else if plants.any fun p => strLower p.name = strLower name then .error .duplicateName
  else .ok (plants ++ [{ name := name
                         watering_interval := watering_interval
                         watering_hour := watering_hour
                         fertilizing_interval := fertilizing_interval
                         last_watered := none
                         last_fertilized := none
                         history := [] }])

/-- The rename branch of `edit_plant`: rejects an empty name, rejects a
new name whose lowercase form equals the lowercase name of any OTHER
plant (`p is not plant` is modelled as a differing list index), and
otherwise overwrites the name field of the plant at index `i`. -/
def rename_plant (plants : List Plant) (i : Nat) (new_name : String) :
    Except EngineError (List Plant) :=
  if new_name = "" then .error .emptyName
  else if (List.range plants.length).any
      (fun j => j ≠ i ∧ ((plants.get? j).map (fun p => strLower p.name)) = some (strLower new_name)) then
    .error .duplicateName
  else
    .ok (match plants.get? i with
         | some p => plants.set i { p with name := new_name }
         | none => plants)

/-- The identity-based removal in `remove_plant`: the selected plant is
found by object identity (`p is selection`), modelled as its index in
the list, and popped; every other plant keeps its position. -/
def remove_plant (plants : List Plant) (i : Nat) : Option (Plant × List Plant) :=
  match plants.get? i with
  | some p => some (p, plants.eraseIdx i)
  | none => none

/-- The operation `mark_watered` on a selected plant: sets `last_watered` to the given
timestamp and appends a `watered` history entry whose date is the value
just stored in `last_watered`. -/
def mark_watered (p : Plant) (whenTs : Timestamp) (notes : Option String) : Plant :=
  let p1 := { p with last_watered := some whenTs }
  { p1 with history := p1.history ++ [{ action := .watered
                                        date := whenTs
                                        notes := notes }] }

/-- The operation `mark_fertilized` on a selected plant: when `fertilizing_interval`
is nil it prints a message and returns before touching the plant;
otherwise it sets `last_fertilized` to the given date (a date-only
timestamp) and appends a `fertilized` entry with that same date.  The
returned pair is the (possibly updated) plant and the error, mirroring
the in-place mutation. -/
def mark_fertilized (p : Plant) (whenDay : Int) (notes : Option String) :
    Plant × Option EngineError :=
  match p.fertilizing_interval with
  | none => (p, some .noFertilizingSchedule)
  | some _ =>
    let ts : Timestamp := { day := whenDay, timeOfDay := none }
    let p1 := { p with last_fertilized := some ts }
    ({ p1 with history := p1.history ++ [{ action := .fertilized
                                           date := ts
                                           notes := notes }] }, none)

/-! ## Persistent store -/

/-- Contents of a file on disk, as far as `json.load` is concerned:
either a valid serialized collection or corrupt bytes (malformed
encoding or parse failure). -/
inductive FileContent where
  | valid (c : List Plant)
  | corrupt
  deriving Repr, DecidableEq

/-- The file system state the store touches: the primary `plants.json`
and the backup `plants.json.bak` (`none` means the file is absent). -/
structure FS where
  primary : Option FileContent
  backup : Option FileContent
  deriving Repr, DecidableEq

/-- Injected I/O failures for the three fallible steps of
`save_plants`: the temp-file write (open/dump/fsync), the backup copy,
and `os.replace`. -/
structure FailureInj where
  tmpWriteFails : Bool
  backupCopyFails : Bool
  replaceFails : Bool
  deriving Repr, DecidableEq

/-- No injected failures. -/
def FailureInj.noFail : FailureInj :=
  { tmpWriteFails := false, backupCopyFails := false, replaceFails := false }

/-- A Python exception escaping a store call. -/
inductive PyExc where
  | ioError
  deriving Repr, DecidableEq

/-- Observable events of one `save_plants` call, in execution order. -/
inductive Event where
  | writeTmp
  | copyBackup
  | warnBackupFailed
  | replacePrimary
  deriving Repr, DecidableEq

/-- Result of a `save_plants` call: the exception that propagated out of
it (if any), the resulting file-system state, and the event trace. -/
structure SaveResult where
  exc : Option PyExc
  fs : FS
  trace : List Event
  deriving Repr, DecidableEq

/-- The save operation `save_plants(plants, skip_backup)`: (1) write and fsync the temp
file — an exception here propagates, nothing on disk changed; (2) if
`skip_backup` is false and the primary exists, copy the primary's bytes
to the backup, catching any failure with a warning; (3) `os.replace`
the temp file onto the primary — an exception here propagates with the
backup step's effect already applied. -/
def save_plants (plants : List Plant) (skip_backup : Bool) (fi : FailureInj)
    (fs : FS) : SaveResult :=
  if fi.tmpWriteFails then
    { exc := some .ioError, fs := fs, trace := [] }
  else
    let step2 : FS × List Event :=
      if ¬skip_backup ∧ fs.primary.isSome then
        if fi.backupCopyFails then (fs, [.warnBackupFailed])
        else ({ fs with backup := fs.primary }, [.copyBackup])
      else (fs, [])
    if fi.replaceFails then
      { exc := some .ioError, fs := step2.1, trace := .writeTmp :: step2.2 }
    else
      { exc := none
        fs := { step2.1 with primary := some (.valid plants) }
        trace := .writeTmp :: step2.2 ++ [.replacePrimary] }

/-- Warnings `load_plants` prints. -/
inductive Warning where
  | primaryUnreadable
  | backupUnreadable
  deriving Repr, DecidableEq

/-- Result of a `load_plants` call: the exception that propagated out of
it (if any), the returned collection, the resulting file-system state,
and the warnings printed. -/
structure LoadResult where
  exc : Option PyExc
  collection : List Plant
  fs : FS
  warnings : List Warning
  deriving Repr, DecidableEq

/-- The load operation `load_plants()`: a missing primary yields the empty list
(`FileNotFoundError` caught); a valid primary is returned as is; a
corrupt primary (JSONDecodeError/UnicodeDecodeError caught) warns and
falls back to the backup — a valid backup is returned after healing the
primary via `save_plants(data, skip_backup=True)`, and any exception in
that fallback block (missing or corrupt backup, or a failure inside the
healing save) is caught, warns again and yields the empty list. -/
def load_plants (fi : FailureInj) (fs : FS) : LoadResult :=
  match fs.primary with
  | none => { exc := none, collection := [], fs := fs, warnings := [] }
  | some (.valid c) => { exc := none, collection := c, fs := fs, warnings := [] }
  | some .corrupt =>
    match fs.backup with
    | some (.valid data) =>
      let sr := save_plants data true fi fs
      match sr.exc with
      | none =>
        { exc := none, collection := data, fs := sr.fs
          warnings := [.primaryUnreadable] }
      | some _ =>
        { exc := none, collection := [], fs := sr.fs
          warnings := [.primaryUnreadable, .backupUnreadable] }
    | _ =>
      { exc := none, collection := [], fs := fs
        warnings := [.primaryUnreadable, .backupUnreadable] }

/-! ## Helper lemmas -/

theorem Timestamp.dateOf_eq_day (t : Timestamp) : t.dateOf = t.day := by
  rcases t with ⟨d, tod⟩
  cases tod <;> rfl

/-- Closed form of `reminder_for` on the overdue-only filter. -/
theorem reminder_for_overdueOnly (p : Plant) (today : Int) :
    reminder_for p .overdueOnly today =
      (if days_until_watering p today ≤ 0 then
        [Reminder.watering (classify (days_until_watering p today))] else [])
      ++ (match p.fertilizing_interval with
          | none => []
          | some iv =>
            if days_until_fertilizing p iv today ≤ 0 then
              [Reminder.fertilizing (classify (days_until_fertilizing p iv today))]
            else []) := by
  cases hf : p.fertilizing_interval <;> simp [reminder_for, hf]

/-- Writing back the element already at an index leaves a list
unchanged. -/
theorem list_set_get_self {α : Type _} :
    ∀ (l : List α) (i : Nat) (a : α), l.get? i = some a → l.set i a = l
  | [], _, _, h => by cases h
  | b :: tl, 0, a, h => by
    simp only [List.get?] at h
    cases h
    rfl
  | b :: tl, i + 1, a, h => by
    simp only [List.get?] at h
    simp [List.set, list_set_get_self tl i a h]

/-- Erasing the index that was just overwritten gives the same result
as erasing it from the original list. -/
theorem list_eraseIdx_set {α : Type _} :
    ∀ (l : List α) (i : Nat) (a : α), (l.set i a).eraseIdx i = l.eraseIdx i
  | [], _, _ => rfl
  | _ :: _, 0, _ => rfl
  | b :: tl, i + 1, a => by
    simp [List.set, List.eraseIdx, list_eraseIdx_set tl i a]

/-! ## Claim theorems -/

/-- C1: For every plant and reference date today, the
watering/fertilizing due status is computed as `nextDue = lastDate +
intervalDays` and `daysUntil = nextDue - today`, classified as
Overdue(by = -daysUntil) when negative, DueToday when zero and
Upcoming(in = daysUntil) when positive; a nil `last_*` field gives
`daysUntil = 0` and DueToday. -/
theorem C1_due_status_matches_spec (p : Plant) (today : Int) :
    watering_status p today
      = dueStatus_spec (p.last_watered.map Timestamp.dateOf) p.watering_interval today
    ∧ (∀ iv, p.fertilizing_interval = some iv →
        fertilizing_status p today
          = .scheduled (dueStatus_spec (p.last_fertilized.map Timestamp.dateOf) iv today))
    ∧ (p.last_watered = none →
        days_until_watering p today = 0 ∧ watering_status p today = .dueToday)
    ∧ (∀ iv, p.fertilizing_interval = some iv → p.last_fertilized = none →
        days_until_fertilizing p iv today = 0
        ∧ fertilizing_status p today = .scheduled .dueToday) := by
  refine ⟨?_, ?_, ?_, ?_⟩
  · cases h : p.last_watered <;>
      simp [watering_status, days_until_watering, dueStatus_spec, classify, h]
  · intro iv hiv
    cases h : p.last_fertilized <;>
      simp [fertilizing_status, days_until_fertilizing, dueStatus_spec, classify, h, hiv]
  · intro h
    simp [watering_status, days_until_watering, classify, h]
  · intro iv hiv h
    simp [fertilizing_status, days_until_fertilizing, classify, h, hiv]

/-- A sample plant used by concrete witnesses. -/
def samplePlant : Plant :=
  { name := "Monstera"
    watering_interval := 7
    watering_hour := none
    fertilizing_interval := some 30
    last_watered := some { day := 19723, timeOfDay := some (8, 30) }
    last_fertilized := some { day := 19700, timeOfDay := none }
    history := [] }

theorem C1_witness :
    samplePlant.fertilizing_interval = some 30
    ∧ fertilizing_status samplePlant 19730
        = .scheduled (dueStatus_spec (samplePlant.last_fertilized.map Timestamp.dateOf) 30 19730) :=
  ⟨rfl, (C1_due_status_matches_spec samplePlant 19730).2.1 30 rfl⟩

/-- C9: when `last_watered` stores a full date+time, only the date
component participates: two timestamps on the same calendar day with
different times of day give the same `days_until` and status. -/
theorem C9_time_of_day_ignored (p : Plant) (today : Int) (t1 t2 : Timestamp)
    (h : t1.day = t2.day) :
    days_until_watering { p with last_watered := some t1 } today
      = days_until_watering { p with last_watered := some t2 } today
    ∧ watering_status { p with last_watered := some t1 } today
      = watering_status { p with last_watered := some t2 } today := by
  have hd : t1.dateOf = t2.dateOf := by
    rw [Timestamp.dateOf_eq_day, Timestamp.dateOf_eq_day, h]
  constructor
  · simp [days_until_watering, hd]
  · simp [watering_status, days_until_watering, hd]

theorem C9_witness :
    (({ day := 19723, timeOfDay := some (8, 30) } : Timestamp).day
      = ({ day := 19723, timeOfDay := some (21, 45) } : Timestamp).day)
    ∧ watering_status { samplePlant with last_watered := some { day := 19723, timeOfDay := some (8, 30) } } 19730
      = watering_status { samplePlant with last_watered := some { day := 19723, timeOfDay := some (21, 45) } } 19730 :=
  ⟨rfl, (C9_time_of_day_ignored samplePlant 19730
          { day := 19723, timeOfDay := some (8, 30) }
          { day := 19723, timeOfDay := some (21, 45) } rfl).2⟩

/-- C7: for a plant with nil `fertilizing_interval`, the fertilizing
status is NoSchedule (distinct from every Overdue/DueToday/Upcoming
value), no fertilizing-related message appears in the overdue-only
view, and `mark_fertilized` fails with NoFertilizingSchedule leaving
`last_fertilized` and the history unchanged. -/
theorem C7_nil_fertilizing_schedule (p : Plant) (today whenDay : Int)
    (notes : Option String) (h : p.fertilizing_interval = none) :
    fertilizing_status p today = .noSchedule
    ∧ (∀ s : DueStatus, FertStatus.noSchedule ≠ .scheduled s)
    ∧ hasFertilizingRelated (reminder_for p .overdueOnly today) = false
    ∧ mark_fertilized p whenDay notes = (p, some .noFertilizingSchedule)
    ∧ (mark_fertilized p whenDay notes).1.last_fertilized = p.last_fertilized
    ∧ (mark_fertilized p whenDay notes).1.history = p.history := by
  refine ⟨?_, ?_, ?_, ?_, ?_, ?_⟩
  · simp [fertilizing_status, h]
  · intro s hs
    exact FertStatus.noConfusion hs
  · rw [reminder_for_overdueOnly]
    by_cases hw : days_until_watering p today ≤ 0 <;>
      simp [hasFertilizingRelated, h, hw]
  · simp [mark_fertilized, h]
  · simp [mark_fertilized, h]
  · simp [mark_fertilized, h]

/-- A sample plant without a fertilizing schedule, for witnesses. -/
def sampleCactus : Plant :=
  { name := "Cactus"
    watering_interval := 14
    watering_hour := some 9
    fertilizing_interval := none
    last_watered := none
    last_fertilized := none
    history := [] }

theorem C7_witness :
    sampleCactus.fertilizing_interval = none
    ∧ fertilizing_status sampleCactus 19730 = .noSchedule
    ∧ mark_fertilized sampleCactus 19730 none
        = (sampleCactus, some .noFertilizingSchedule) :=
  ⟨rfl, (C7_nil_fertilizing_schedule sampleCactus 19730 19730 none rfl).1,
    (C7_nil_fertilizing_schedule sampleCactus 19730 19730 none rfl).2.2.2.1⟩

/-- C10: in the overdue-only view a watering (resp. scheduled
fertilizing) reminder for a plant appears exactly when the
corresponding `days_until` is at most 0, so DueToday plants are
included alongside strictly overdue ones. -/
theorem C10_overdue_only_includes_due_today (p : Plant) (today : Int) :
    (hasWateringReminder (reminder_for p .overdueOnly today) = true
      ↔ days_until_watering p today ≤ 0)
    ∧ (∀ iv, p.fertilizing_interval = some iv →
        (hasFertilizingReminder (reminder_for p .overdueOnly today) = true
          ↔ days_until_fertilizing p iv today ≤ 0)) := by
  constructor
  · rw [reminder_for_overdueOnly]
    cases hf : p.fertilizing_interval with
    | none =>
      by_cases hw : days_until_watering p today ≤ 0 <;>
        simp [hasWateringReminder, hw]
    | some iv =>
      by_cases hw : days_until_watering p today ≤ 0 <;>
        by_cases hfd : days_until_fertilizing p iv today ≤ 0 <;>
          simp [hasWateringReminder, hw, hfd]
  · intro iv hiv
    rw [reminder_for_overdueOnly]
    by_cases hw : days_until_watering p today ≤ 0 <;>
      by_cases hfd : days_until_fertilizing p iv today ≤ 0 <;>
        simp [hasFertilizingReminder, hiv, hw, hfd]

theorem C10_witness :
    samplePlant.fertilizing_interval = some 30
    ∧ (hasFertilizingReminder (reminder_for samplePlant .overdueOnly 19730) = true
        ↔ days_until_fertilizing samplePlant 30 19730 ≤ 0) :=
  ⟨rfl, (C10_overdue_only_includes_due_today samplePlant 19730).2 30 rfl⟩

/-- C5: a successful mark-watered or mark-fertilized appends exactly one
history entry (action `watered` resp. `fertilized`) and sets the
corresponding `last_*` field to the same date value stored in that
entry, leaving the earlier history entries unchanged. -/
theorem C5_mark_appends_one_entry (p : Plant) (whenTs : Timestamp) (whenDay : Int)
    (notes notes2 : Option String) :
    (mark_watered p whenTs notes).history
        = p.history ++ [{ action := .watered, date := whenTs, notes := notes }]
    ∧ (mark_watered p whenTs notes).last_watered = some whenTs
    ∧ (∀ iv, p.fertilizing_interval = some iv →
        (mark_fertilized p whenDay notes2).2 = none
        ∧ (mark_fertilized p whenDay notes2).1.history
            = p.history
              ++ [{ action := .fertilized
                    date := { day := whenDay, timeOfDay := none }
                    notes := notes2 }]
        ∧ (mark_fertilized p whenDay notes2).1.last_fertilized
            = some { day := whenDay, timeOfDay := none }) := by
  refine ⟨rfl, rfl, ?_⟩
  intro iv hiv
  refine ⟨?_, ?_, ?_⟩ <;> simp [mark_fertilized, hiv]

theorem C5_witness :
    samplePlant.fertilizing_interval = some 30
    ∧ (mark_fertilized samplePlant 19730 none).1.history
        = samplePlant.history
          ++ [{ action := .fertilized
                date := { day := 19730, timeOfDay := none }
                notes := none }] :=
  ⟨rfl, ((C5_mark_appends_one_entry samplePlant { day := 19730, timeOfDay := none }
      19730 none none).2.2 30 rfl).2.1⟩

/-- C6: adding a name that differs only in case from an existing name
fails with DuplicateName; renaming to a name case-insensitively equal
to another plant's name fails; renaming a plant to its own current name
succeeds and leaves the collection unchanged. -/
theorem C6_case_insensitive_uniqueness (plants : List Plant) :
    (∀ (name : String) (wi : Int) (wh fiv : Option Int) (q : Plant),
      name ≠ "" → q ∈ plants → strLower q.name = strLower name →
      add_plant plants name wi wh fiv = .error .duplicateName)
    ∧ (∀ (i j : Nat) (new_name : String) (q : Plant),
      new_name ≠ "" → j ≠ i → plants.get? j = some q →
      strLower q.name = strLower new_name →
      rename_plant plants i new_name = .error .duplicateName)
    ∧ (∀ (i : Nat) (p : Plant),
      plants.get? i = some p → p.name ≠ "" →
      plants.Pairwise (fun a b => strLower a.name ≠ strLower b.name) →
      rename_plant plants i p.name = .ok plants) := by
  refine ⟨?_, ?_, ?_⟩
  · intro name wi wh fiv q hne hq hname
    have hany : (plants.any fun p => strLower p.name = strLower name) = true := by
      rw [List.any_eq_true]
      exact ⟨q, hq, by simp [hname]⟩
    unfold add_plant
    rw [if_neg hne, if_pos hany]
  · intro i j new_name q hne hji hj hqname
    have hjlt : j < plants.length := (List.get?_eq_some.mp hj).1
    have hany : ((List.range plants.length).any
        (fun k => k ≠ i ∧ ((plants.get? k).map (fun p => strLower p.name))
          = some (strLower new_name))) = true := by
      rw [List.any_eq_true]
      refine ⟨j, List.mem_range.mpr hjlt, ?_⟩
      simp only [decide_eq_true_eq]
      refine ⟨hji, ?_⟩
      rw [hj]
      simp [hqname]
    unfold rename_plant
    rw [if_neg hne, if_pos hany]
  · intro i p hi hne hpw
    have hilt : i < plants.length := (List.get?_eq_some.mp hi).1
    have hpi : plants[i] = p := by
      have h2 := hi
      rw [List.get?_eq_getElem?, List.getElem?_eq_getElem hilt] at h2
      exact Option.some.inj h2
    have hany : ((List.range plants.length).any
        (fun k => k ≠ i ∧ ((plants.get? k).map (fun p2 => strLower p2.name))
          = some (strLower p.name))) = false := by
      rw [List.any_eq_false]
      intro k hk
      have hklt : k < plants.length := List.mem_range.mp hk
      simp only [decide_eq_true_eq, not_and]
      intro hki hmap
      rw [List.get?_eq_getElem?, List.getElem?_eq_getElem hklt] at hmap
      simp only [Option.map_some', Option.some.injEq] at hmap
      rcases Nat.lt_or_ge k i with hlt | hge
      · have hrel := List.pairwise_iff_getElem.mp hpw k i hklt hilt hlt
        exact hrel (by rw [hpi]; exact hmap)
      · have hik : i < k := Nat.lt_of_le_of_ne hge (fun hh => hki hh.symm)
        have hrel := List.pairwise_iff_getElem.mp hpw i k hilt hklt hik
        exact hrel (by rw [hpi, hmap])
    have hnotany : ¬(((List.range plants.length).any
        (fun k => k ≠ i ∧ ((plants.get? k).map (fun p2 => strLower p2.name))
          = some (strLower p.name))) = true) := by
      rw [hany]
      exact Bool.false_ne_true
    unfold rename_plant
    rw [if_neg hne, if_neg hnotany, hi]
    show Except.ok (plants.set i p) = Except.ok plants
    rw [list_set_get_self plants i p hi]

/-- Two plants with names differing only in case, for witnesses. -/
def sampleTwo : List Plant := [samplePlant, sampleCactus]

theorem C6_witness :
    (("monstera" : String) ≠ "" ∧ samplePlant ∈ sampleTwo
      ∧ strLower samplePlant.name = strLower "monstera"
      ∧ add_plant sampleTwo "monstera" 3 none none = .error .duplicateName)
    ∧ (sampleTwo.get? 0 = some samplePlant ∧ samplePlant.name ≠ ""
      ∧ rename_plant sampleTwo 0 samplePlant.name = .ok sampleTwo) := by
  refine ⟨⟨?_, ?_, ?_, ?_⟩, ⟨rfl, ?_, ?_⟩⟩
  · decide
  · exact List.mem_cons_self _ _
  · decide
  · exact (C6_case_insensitive_uniqueness sampleTwo).1 "monstera" 3 none none
      samplePlant (by decide) (List.mem_cons_self _ _) (by decide)
  · decide
  · exact (C6_case_insensitive_uniqueness sampleTwo).2.2 0 samplePlant rfl
      (by decide) (by
        constructor
        · intro b hb
          rw [List.mem_singleton] at hb
          subst hb
          decide
        · exact List.pairwise_singleton _ _)

/-- C8: removal works by plant identity (list position), not by name:
removing a selected plant removes exactly that record even when its
name field was edited after selection, and all other plants keep their
original order. -/
theorem C8_remove_by_identity (plants : List Plant) (i : Nat) (p p2 : Plant)
    (hi : plants.get? i = some p) :
    remove_plant plants i = some (p, plants.eraseIdx i)
    ∧ remove_plant (plants.set i p2) i = some (p2, plants.eraseIdx i)
    ∧ plants.eraseIdx i = plants.take i ++ plants.drop (i + 1)
    ∧ (plants.eraseIdx i).length = plants.length - 1 := by
  have hilt : i < plants.length := (List.get?_eq_some.mp hi).1
  refine ⟨?_, ?_, ?_, ?_⟩
  · unfold remove_plant
    rw [hi]
  · have hset : (plants.set i p2).get? i = some p2 := by
      rw [List.get?_eq_getElem?]
      exact List.getElem?_set_eq_of_lt p2 (by simpa using hilt)
    unfold remove_plant
    rw [hset, list_eraseIdx_set]
  · exact List.eraseIdx_eq_take_drop_succ plants i
  · rw [List.eraseIdx_eq_take_drop_succ]
    rw [List.length_append, List.length_take, List.length_drop]
    omega

theorem C8_witness :
    sampleTwo.get? 1 = some sampleCactus
    ∧ remove_plant (sampleTwo.set 1 { sampleCactus with name := "Saguaro" }) 1
        = some ({ sampleCactus with name := "Saguaro" }, sampleTwo.eraseIdx 1) :=
  ⟨rfl, (C8_remove_by_identity sampleTwo 1 sampleCactus
    { sampleCactus with name := "Saguaro" } rfl).2.1⟩

/-- C2: load returns the empty collection when the primary file is
absent; when the primary is corrupt and the backup valid it returns the
backup contents and rewrites the primary from the backup with the
backup-rotation step skipped, so the backup is unchanged by the repair;
when the backup is also invalid or absent it returns the empty
collection with a warning. -/
theorem C2_load_recovery (fs : FS) (fi : FailureInj) (c : List Plant) :
    (fs.primary = none →
      load_plants fi fs = { exc := none, collection := [], fs := fs, warnings := [] })
    ∧ (fs.primary = some .corrupt → fs.backup = some (.valid c) →
      fi.tmpWriteFails = false → fi.replaceFails = false →
      load_plants fi fs
        = { exc := none
            collection := c
            fs := { primary := some (.valid c), backup := fs.backup }
            warnings := [.primaryUnreadable] }
      ∧ (load_plants fi fs).fs.backup = fs.backup)
    ∧ (fs.primary = some .corrupt → (fs.backup = none ∨ fs.backup = some .corrupt) →
      load_plants fi fs
        = { exc := none, collection := [], fs := fs
            warnings := [.primaryUnreadable, .backupUnreadable] }) := by
  refine ⟨?_, ?_, ?_⟩
  · intro h
    simp [load_plants, h]
  · intro hp hb h1 h2
    have : load_plants fi fs
        = { exc := none
            collection := c
            fs := { primary := some (.valid c), backup := fs.backup }
            warnings := [.primaryUnreadable] } := by
      rcases fs with ⟨pr, bk⟩
      simp only at hp hb
      subst hp
      subst hb
      simp [load_plants, save_plants, h1, h2]
    exact ⟨this, by rw [this]⟩
  · intro hp hb
    rcases fs with ⟨pr, bk⟩
    simp only at hp
    subst hp
    rcases hb with hb | hb <;> (simp only at hb; subst hb; simp [load_plants])

/-- A sample saved collection, for witnesses. -/
def sampleSaved : List Plant := [sampleCactus]

theorem C2_witness :
    (({ primary := some .corrupt, backup := some (.valid sampleSaved) } : FS).primary
      = some .corrupt)
    ∧ load_plants .noFail { primary := some .corrupt, backup := some (.valid sampleSaved) }
        = { exc := none
            collection := sampleSaved
            fs := { primary := some (.valid sampleSaved)
                    backup := some (.valid sampleSaved) }
            warnings := [.primaryUnreadable] } :=
  ⟨rfl, ((C2_load_recovery { primary := some .corrupt, backup := some (.valid sampleSaved) }
    .noFail sampleSaved).2.1 rfl rfl rfl rfl).1⟩

/-- C3: save writes and syncs the temp file first, then (when a primary
exists and this is not a corruption-repair write) copies the primary's
pre-save bytes to the backup, then atomically replaces the primary; a
backup-copy failure is non-fatal and the replace still proceeds. -/
theorem C3_save_ordering (plants : List Plant) (fs : FS) (fi : FailureInj)
    (h1 : fi.tmpWriteFails = false) (h2 : fi.replaceFails = false) :
    (fs.primary.isSome = true → fi.backupCopyFails = false →
      save_plants plants false fi fs
        = { exc := none
            fs := { primary := some (.valid plants), backup := fs.primary }
            trace := [.writeTmp, .copyBackup, .replacePrimary] })
    ∧ (fs.primary.isSome = true → fi.backupCopyFails = true →
      save_plants plants false fi fs
        = { exc := none
            fs := { primary := some (.valid plants), backup := fs.backup }
            trace := [.writeTmp, .warnBackupFailed, .replacePrimary] })
    ∧ (fs.primary = none →
      save_plants plants false fi fs
        = { exc := none
            fs := { primary := some (.valid plants), backup := fs.backup }
            trace := [.writeTmp, .replacePrimary] })
    ∧ save_plants plants true fi fs
        = { exc := none
            fs := { primary := some (.valid plants), backup := fs.backup }
            trace := [.writeTmp, .replacePrimary] } := by
  refine ⟨?_, ?_, ?_, ?_⟩
  · intro hp hb
    simp [save_plants, h1, h2, hp, hb]
  · intro hp hb
    simp [save_plants, h1, h2, hp, hb]
  · intro hp
    simp [save_plants, h1, h2, hp]
  · simp [save_plants, h1, h2]

theorem C3_witness :
    (({ primary := some (.valid sampleSaved), backup := none } : FS).primary.isSome = true)
    ∧ save_plants [] false
        { tmpWriteFails := false, backupCopyFails := true, replaceFails := false }
        { primary := some (.valid sampleSaved), backup := none }
        = { exc := none
            fs := { primary := some (.valid []), backup := none }
            trace := [.writeTmp, .warnBackupFailed, .replacePrimary] } :=
  ⟨rfl, (C3_save_ordering []
    { primary := some (.valid sampleSaved), backup := none }
    { tmpWriteFails := false, backupCopyFails := true, replaceFails := false }
    rfl rfl).2.1 rfl rfl⟩

/-- C4 counterexample: an I/O failure in the temp-file write step of
save propagates as an exception out of the store call, so not every I/O
failure inside save is converted into a recoverable return value or a
warning. -/
theorem C4_counterexample :
    (save_plants [] false
      { tmpWriteFails := true, backupCopyFails := false, replaceFails := false }
      { primary := none, backup := none }).exc = some .ioError := rfl

/-- C4 amended: every failure arising inside load (missing primary,
corrupt primary, missing or corrupt backup, or any failure inside the
corruption-repair save) is caught, and a backup-copy failure inside
save is non-fatal; but a temp-file write failure or a replace failure
inside save propagates as an exception past the store boundary. -/
theorem C4_store_exception_policy (fi : FailureInj) (fs : FS)
    (plants : List Plant) (sb : Bool) :
    (load_plants fi fs).exc = none
    ∧ ((save_plants plants sb fi fs).exc = none
        ↔ (fi.tmpWriteFails = false ∧ fi.replaceFails = false)) := by
  constructor
  · rcases fs with ⟨pr, bk⟩
    rcases pr with _ | pc
    · rfl
    · rcases pc with c | _
      · rfl
      · rcases bk with _ | bc
        · rfl
        · rcases bc with c | _
          · simp only [load_plants, save_plants]
            cases h1 : fi.tmpWriteFails <;> cases h2 : fi.replaceFails <;> simp [h1, h2]
          · rfl
  · cases h1 : fi.tmpWriteFails <;> cases h2 : fi.replaceFails <;>
      simp [save_plants, h1, h2]

theorem C4_witness :
    (load_plants { tmpWriteFails := true, backupCopyFails := false, replaceFails := true }
      { primary := some .corrupt, backup := some (.valid sampleSaved) }).exc = none :=
  (C4_store_exception_policy
    { tmpWriteFails := true, backupCopyFails := false, replaceFails := true }
    { primary := some .corrupt, backup := some (.valid sampleSaved) } [] false).1

end PlantCare
